import Mathlib

/-!
# Verification of the Pantheon metrics dashboard's parsing and reporting logic

This file is a shallow embedding, in Lean 4, of the algorithmic core of the
`pantheon-metrics-dashboard` repository (`metrics.py`, `metrics_dashboard.py`):
the date reformatter, the two table parsers, the cache-hit-ratio summarizer,
the traffic-anomaly detector, the HTML report builder and the webhook sender.

Modelling conventions:
* Python strings are modelled as `List Char`; the ASCII fragments of Python's
  `\s`, `\d`, `\w` classes and of `str.isdigit` are used (the inputs at stake
  are ASCII terminus tables).
* Python floats are modelled as exact rationals (`ℚ`); the float values that
  occur are small decimal literals, where binary rounding plays no role in any
  of the compared quantities' orderings.
* Fallible code (`int()`, `float()`, pandas coercion) is modelled with
  `Option`/`Except`; an uncaught Python exception is an explicit error value.
* Code with real I/O (subprocess, HTTP) is modelled by abstracting the
  response as an explicit argument.
-/

namespace PantheonMetrics

/-! ## Character classes and Python string primitives -/

/-- The ASCII part of Python's regex class `\s` (also what `str.strip()`
strips). -/
def isSpaceChar (c : Char) : Bool :=
  c == ' ' || c == '\t' || c == '\n' || c == '\r' || c == '\x0b' || c == '\x0c'

/-- The ASCII part of Python's regex class `\w` (used by the `\b` word
boundary). -/
def isWordChar (c : Char) : Bool :=
  c.isAlphanum || c == '_'

/-- Numeric value of an ASCII digit. -/
def digitVal (c : Char) : Nat := c.toNat - '0'.toNat

/-- Value of an ASCII digit string. -/
def digitsToNat (ds : List Char) : Nat :=
  ds.foldl (fun n c => 10 * n + digitVal c) 0

/-- Python `str.strip()` (ASCII whitespace). -/
def pyStrip (l : List Char) : List Char :=
  ((l.dropWhile isSpaceChar).reverse.dropWhile isSpaceChar).reverse

/-- `str.strip('%')`: percent signs removed from both ends. -/
def stripPercentEnds (l : List Char) : List Char :=
  ((l.dropWhile (fun c => c == '%')).reverse.dropWhile (fun c => c == '%')).reverse

/-- Python `str.splitlines()` restricted to `'\n'`-separated text: a final
newline does not produce a trailing empty line. -/
def splitLinesAux (cur : List Char) : List Char → List (List Char)
  | [] => if cur.isEmpty then [] else [cur.reverse]
  | c :: rest =>
    if c == '\n' then cur.reverse :: splitLinesAux [] rest
    else splitLinesAux (c :: cur) rest

def splitLines (l : List Char) : List (List Char) :=
  splitLinesAux [] l

/-- Whether `pat` is a prefix of `l` (Python `str.startswith`). -/
def startsWithList : List Char → List Char → Bool
  | [], _ => true
  | _ :: _, [] => false
  | p :: ps, c :: cs => p == c && startsWithList ps cs

/-- Whether `pat` occurs as a contiguous substring of `l` (Python `in`). -/
def containsList (pat : List Char) : List Char → Bool
  | [] => pat.isEmpty
  | c :: rest => startsWithList pat (c :: rest) || containsList pat rest

/-- Python `int()` on a string: optional surrounding whitespace, optional
sign, then one or more ASCII digits (underscore grouping is not modelled; it
does not occur in terminus output). -/
def pyInt (l : List Char) : Option Int :=
  match pyStrip l with
  | '+' :: ds =>
    if !ds.isEmpty && ds.all Char.isDigit then some (digitsToNat ds : Int) else none
  | '-' :: ds =>
    if !ds.isEmpty && ds.all Char.isDigit then some (-(digitsToNat ds : Int)) else none
  | ds =>
    if !ds.isEmpty && ds.all Char.isDigit then some (digitsToNat ds : Int) else none

/-- Exact value of an unsigned decimal literal `digits[.digits]`. -/
def decValue (ds : List Char) : ℚ :=
  let ip := ds.takeWhile (fun c => c != '.')
  let fp := (ds.dropWhile (fun c => c != '.')).drop 1
  (digitsToNat ip : ℚ) + (digitsToNat fp : ℚ) / (10 : ℚ) ^ fp.length

/-- Python `float()` on an unsigned plain decimal string: at least one digit,
at most one dot, nothing else (exponent/inf/nan forms are not modelled; they
do not occur in terminus output). -/
def pyFloatUnsigned (ds : List Char) : Option ℚ :=
  if !(ds.filter (fun c => c != '.')).isEmpty
      && (ds.filter (fun c => c != '.')).all Char.isDigit
      && decide (ds.count '.' ≤ 1) then
    some (decValue ds)
  else none

/-- Python `float()` with optional surrounding whitespace and sign. -/
def pyFloat (l : List Char) : Option ℚ :=
  match pyStrip l with
  | '+' :: ds => pyFloatUnsigned ds
  | '-' :: ds => (pyFloatUnsigned ds).map Neg.neg
  | ds => pyFloatUnsigned ds

/-! ## Header recognition (both parsers) -/

def periodTok : List Char := "Period".data

def ratioTok : List Char := "Cache Hit Ratio".data

/-- A line is a header line when it contains both the literal tokens
`Period` and `Cache Hit Ratio` (`metrics.py` line 108,
`metrics_dashboard.py` line 146). -/
def isHeaderLine (line : List Char) : Bool :=
  containsList periodTok line && containsList ratioTok line

/-! ## `metrics.py`: `extract_cache_hit_ratios` -/

/-- Whether a finished whitespace run delimits under `\s{2,}|\t|,`: any run
of length at least two (matched greedily by `\s{2,}`), or a single tab. -/
def runDelimTC (pend : List Char) : Bool :=
  decide (2 ≤ pend.length) || pend == ['\t']

/-- `re.split(r'\s{2,}|\t|,', line)` (`metrics.py` line 113) as a one-pass
scanner: `cur` is the reversed current token, `pend` the pending whitespace
run; a run ends at a non-space character or at the end of input and then
either delimits or is folded back into the token; a comma always delimits. -/
def splitFieldsGo (cur pend : List Char) : List Char → List (List Char)
  | [] => if runDelimTC pend then [cur.reverse, []] else [(pend ++ cur).reverse]
  | c :: rest =>
    if isSpaceChar c then splitFieldsGo cur (c :: pend) rest
    else if runDelimTC pend then
      if c == ',' then cur.reverse :: [] :: splitFieldsGo [] [] rest
      else cur.reverse :: splitFieldsGo [c] [] rest
    else
      if c == ',' then (pend ++ cur).reverse :: splitFieldsGo [] [] rest
      else splitFieldsGo (c :: (pend ++ cur)) [] rest

def splitFields (line : List Char) : List (List Char) :=
  splitFieldsGo [] [] line

/-- `[p.strip() for p in parts if p.strip()]` (`metrics.py` line 114). -/
def pyParts (line : List Char) : List (List Char) :=
  ((splitFields line).map pyStrip).filter (fun p => !p.isEmpty)

/-- `ratio_val.replace('.', '').isdigit()` (`metrics.py` line 119). -/
def isDigitsDots (l : List Char) : Bool :=
  !(l.filter (fun c => c != '.')).isEmpty && (l.filter (fun c => c != '.')).all Char.isDigit

/-- One iteration of the data branch of the `extract_cache_hit_ratios` loop
(`metrics.py` lines 113-122): split the line, require at least two non-empty
fields, take the first as the period and the last with `%` stripped from both
ends as the ratio; keep the pair when the stripped ratio passes the
digits-and-dots check and parses as a float (a `float()` failure is caught by
the surrounding `except` and skips the line). -/
def parseDataLine (line : List Char) : Option (List Char × ℚ) :=
  match pyParts line with
  | p0 :: p1 :: rest =>
    let ratioStr := stripPercentEnds ((p0 :: p1 :: rest).getLastD [])
    if isDigitsDots ratioStr then
      (pyFloatUnsigned ratioStr).map (fun q => (p0, q))
    else none
  | _ => none

/-- The `extract_cache_hit_ratios` loop (`metrics.py` lines 105-122): a line
containing both header tokens (re)sets the header flag and is skipped; after
the flag is set, each non-blank line goes through `parseDataLine`. -/
def extractGo : Bool → List (List Char) → List (List Char × ℚ)
  | _, [] => []
  | headerFound, line :: rest =>
    if isHeaderLine line then extractGo true rest
    else if headerFound && !(pyStrip line).isEmpty then
      match parseDataLine line with
      | some pr => pr :: extractGo headerFound rest
      | none => extractGo headerFound rest
    else extractGo headerFound rest

/-- `extract_cache_hit_ratios` (`metrics.py` lines 102-130); the debug
printing does not affect the returned list. -/
def extractCacheHitRatios (output : String) : List (List Char × ℚ) :=
  extractGo false (splitLines output.data)

/-- Spec-side reading for claim C10: the last field with only a trailing
`%` stripped (the code's `strip('%')` strips both ends instead). -/
def stripTrailingPercent (l : List Char) : List Char :=
  (l.reverse.dropWhile (fun c => c == '%')).reverse

/-! ## `metrics_dashboard.py`: `parse_table_to_df` -/

/-- `re.split(r'\s{2,}', s)` as a one-pass scanner: only runs of two or more
whitespace characters delimit; a lone tab or a comma does not. -/
def splitRunsGo (cur pend : List Char) : List Char → List (List Char)
  | [] =>
    if decide (2 ≤ pend.length) then [cur.reverse, []] else [(pend ++ cur).reverse]
  | c :: rest =>
    if isSpaceChar c then splitRunsGo cur (c :: pend) rest
    else if decide (2 ≤ pend.length) then cur.reverse :: splitRunsGo [c] [] rest
    else splitRunsGo (c :: (pend ++ cur)) [] rest

/-- `re.split(r'\s{2,}', line.strip())` (`metrics_dashboard.py` lines 149 and
154): used for both the header and the data rows. -/
def splitCols (line : List Char) : List (List Char) :=
  splitRunsGo [] [] (pyStrip line)

/-- Index of the first line containing both header tokens (line 146). -/
def findHeaderIdx : List (List Char) → Option Nat
  | [] => none
  | l :: rest =>
    if isHeaderLine l then some 0 else (findHeaderIdx rest).map (fun i => i + 1)

/-- Lines 152-153: blank lines and lines whose stripped form starts with a
dash are skipped. -/
def keepLine (l : List Char) : Bool :=
  match pyStrip l with
  | [] => false
  | '-' :: _ => false
  | _ => true

/-- Lines 145-156 of `parse_table_to_df`: locate the header, split it, then
collect the split rows of the lines starting *two* past the header whose
field count equals the header's.  `none` when no header line exists. -/
def tableLines (lines : List (List Char)) :
    Option (List (List Char) × List (List (List Char))) :=
  match findHeaderIdx lines with
  | none => none
  | some i =>
    let header := splitCols (lines.getD i [])
    some (header,
      (((lines.drop (i + 2)).filter keepLine).map splitCols).filter
        (fun r => r.length == header.length))

/-- One coerced table row (the dataframe columns after lines 160-169). -/
structure MetricsRow where
  period : List Char
  visits : Int
  pagesServed : Int
  cacheHits : Int
  cacheMisses : Int
  cacheHitRatio : ℚ
  deriving DecidableEq

def visitsTok : List Char := "Visits".data

def pagesTok : List Char := "Pages Served".data

def hitsTok : List Char := "Cache Hits".data

def missesTok : List Char := "Cache Misses".data

/-- Position of a named column in the header (pandas `df[name]`; duplicate
header names, which pandas would reject later, are not modelled). -/
def colIdx (header : List (List Char)) (name : List Char) : Option Nat :=
  header.findIdx? (fun h => h == name)

def colValue (header row : List (List Char)) (name : List Char) :
    Option (List Char) :=
  (colIdx header name).map (fun i => row.getD i [])

/-- The numeric coercions of lines 160-162: commas stripped and `int()` for
the four count columns, `%` stripped and `float()` for the ratio column.  A
missing column (pandas `KeyError`) or a failed conversion (`ValueError`) is
an uncaught exception, modelled as `none`.  The `Period` column keeps its
string form: the `pd.to_datetime` attempts of lines 163-169 never raise
(`except: pass`) and are tracked by `periodsDatedOf` below. -/
def coerceRow (header row : List (List Char)) : Option MetricsRow := do
  let vs ← colValue header row visitsTok
  let v ← pyInt (vs.filter (fun c => c != ','))
  let ps ← colValue header row pagesTok
  let p ← pyInt (ps.filter (fun c => c != ','))
  let hs ← colValue header row hitsTok
  let hv ← pyInt (hs.filter (fun c => c != ','))
  let ms ← colValue header row missesTok
  let m ← pyInt (ms.filter (fun c => c != ','))
  let rs ← colValue header row ratioTok
  let r ← pyFloat (rs.filter (fun c => c != '%'))
  let per := match colIdx header periodTok with
    | some i => row.getD i []
    | none => []
  pure ⟨per, v, p, hv, m, r⟩

/-! ### Calendar dates (shared by `strptime`/`strftime` and `pd.to_datetime`) -/

def isLeapYear (y : Nat) : Bool :=
  (y % 4 == 0 && y % 100 != 0) || y % 400 == 0

def daysInMonth (y m : Nat) : Nat :=
  if m == 2 then (if isLeapYear y then 29 else 28)
  else if m == 4 || m == 6 || m == 9 || m == 11 then 30
  else 31

/-- Validity of a proleptic-Gregorian calendar date as `datetime` accepts it
(year 1-9999). -/
def isValidDate (y m d : Nat) : Bool :=
  decide (1 ≤ y) && decide (y ≤ 9999) && decide (1 ≤ m) && decide (m ≤ 12)
    && decide (1 ≤ d) && decide (d ≤ daysInMonth y m)

def splitDashAux (cur : List Char) : List Char → List (List Char)
  | [] => [cur.reverse]
  | c :: rest =>
    if c == '-' then cur.reverse :: splitDashAux [] rest
    else splitDashAux (c :: cur) rest

def splitDash (l : List Char) : List (List Char) :=
  splitDashAux [] l

/-- `strptime`-style match of `%m-%d-%Y`: three dash-separated all-digit
fields, month and day of 1-2 digits, year of 1-4 digits, forming a valid
date. -/
def dateMDY (l : List Char) : Bool :=
  match splitDash l with
  | [m, d, y] =>
    (!m.isEmpty && m.all Char.isDigit && decide (m.length ≤ 2))
      && (!d.isEmpty && d.all Char.isDigit && decide (d.length ≤ 2))
      && (!y.isEmpty && y.all Char.isDigit && decide (y.length ≤ 4))
      && isValidDate (digitsToNat y) (digitsToNat m) (digitsToNat d)
  | _ => false

/-- `strptime`-style match of `%Y-%m-%d`. -/
def dateYMD (l : List Char) : Bool :=
  match splitDash l with
  | [y, m, d] =>
    (!y.isEmpty && y.all Char.isDigit && decide (y.length ≤ 4))
      && (!m.isEmpty && m.all Char.isDigit && decide (m.length ≤ 2))
      && (!d.isEmpty && d.all Char.isDigit && decide (d.length ≤ 2))
      && isValidDate (digitsToNat y) (digitsToNat m) (digitsToNat d)
  | _ => false

/-- Lines 163-169: `pd.to_datetime` on the whole `Period` column with format
`%m-%d-%Y`, falling back to `%Y-%m-%d`; each attempt succeeds only if every
entry parses, and total failure silently leaves the strings in place. -/
def periodsDatedOf (rows : List MetricsRow) : Bool :=
  rows.all (fun r => dateMDY r.period) || rows.all (fun r => dateYMD r.period)

/-- The parsed dataframe: the coerced rows plus whether the `Period` column
ended up datetime-typed. -/
structure MetricsTable where
  rows : List MetricsRow
  periodsDated : Bool
  deriving DecidableEq

/-- Result of `parse_table_to_df`: the recognized empty-table state (`return
None`), a parsed table, or an uncaught exception during coercion. -/
inductive ParseResult where
  | noTable
  | table (t : MetricsTable)
  | exn
  deriving DecidableEq

/-- `parse_table_to_df` (`metrics_dashboard.py` lines 144-170). -/
def parseTableLines (lines : List (List Char)) : ParseResult :=
  match tableLines lines with
  | none => .noTable
  | some (header, rows) =>
    if rows.isEmpty then .noTable
    else
      match rows.mapM (coerceRow header) with
      | some rs => .table ⟨rs, periodsDatedOf rs⟩
      | none => .exn

def parseTableToDf (output : String) : ParseResult :=
  parseTableLines (splitLines output.data)

/-! ## The date reformatter (`reformat_date_in_output`, identical in both
files) -/

/-- The trailing `\b` of the date regex: end of input or a non-word
character. -/
def boundaryAfterOk (rest : List Char) : Bool :=
  match rest with
  | [] => true
  | c :: _ => !isWordChar c

/-- Whether `(\d{4})-(\d{2})-(\d{2})\b` matches at the start of the list
(the leading `\b` is the scanner's `bnd` flag). -/
def matchDate10 : List Char → Option (Char × Char × Char × Char × Char × Char × Char × Char)
  | y1 :: y2 :: y3 :: y4 :: h1 :: m1 :: m2 :: h2 :: d1 :: d2 :: rest =>
    if h1 == '-' && h2 == '-' && [y1, y2, y3, y4, m1, m2, d1, d2].all Char.isDigit
        && boundaryAfterOk rest then
      some (y1, y2, y3, y4, m1, m2, d1, d2)
    else none
  | _ => none

/-- `re.sub(date_pattern, replace_date, output)` (`metrics.py` lines 90-99,
`metrics_dashboard.py` lines 133-142): scan left to right; at a position
preceded by a word boundary where the pattern matches, emit the
month-day-year reordering when `strptime` accepts the date and the original
ten characters otherwise (the `except ValueError` branch), then continue
after the match; at any other position emit the character and move on.  The
reordered date keeps the four matched year digits, as `strftime('%m-%d-%Y')`
prints them for the years ≥ 1000 that 4-digit matches denote. -/
def reformatAux : Bool → List Char → List Char
  | _, [] => []
  | bnd, c :: cs =>
    match matchDate10 (c :: cs) with
    | some (y1, y2, y3, y4, m1, m2, d1, d2) =>
      if bnd then
        (if isValidDate (digitsToNat [y1, y2, y3, y4]) (digitsToNat [m1, m2])
            (digitsToNat [d1, d2]) then
          [m1, m2, '-', d1, d2, '-', y1, y2, y3, y4]
        else [y1, y2, y3, y4, '-', m1, m2, '-', d1, d2])
          ++ reformatAux false ((c :: cs).drop 10)
      else c :: reformatAux (!isWordChar c) cs
    | none => c :: reformatAux (!isWordChar c) cs
  termination_by _ l => l.length
  decreasing_by
    · simp only [List.length_drop, List.length_cons]
      omega
    · simp

/-- `reformat_date_in_output`. -/
def reformatDateInOutput (s : String) : String :=
  ⟨reformatAux true s.data⟩

/-- The boundary flag after scanning past `pre`, starting from flag `bnd`. -/
def bndAfter (bnd : Bool) (pre : List Char) : Bool :=
  match pre.getLast? with
  | none => bnd
  | some c => !isWordChar c

/-! ## The anomaly detector (`metrics_dashboard.py` lines 277-300) -/

/-- The payload of an anomaly alert (the formatted date and weekday strings
of the message are display-only and not modelled). -/
structure AnomalyEvent where
  recentVisits : Int
  baselineAverage : ℚ
  percentIncrease : ℚ
  priorVisits : List Int
  deriving DecidableEq

/-- `df["Visits"].iloc[-5:-1].mean()`: the mean of the four visit counts
immediately preceding the last one. -/
def baselineAvg (visits : List Int) : ℚ :=
  (((visits.drop (visits.length - 5)).take 4).sum : ℚ) / 4

/-- The anomaly block.  With more than 4 rows the code evaluates
`df["Period"].iloc[-5:-1].dt.strftime(...)` (line 280) before testing the
trigger: when the `Period` column was not datetime-coerced this raises
`AttributeError`, modelled as `Except.error ()`.  Otherwise an event is
emitted iff the baseline average is positive and the last visit count
strictly exceeds `1.25` times it; `percent_increase` is computed by line 284.
Slack delivery of the event (lines 297-300) does not affect detection. -/
def detectAnomaly (t : MetricsTable) : Except Unit (Option AnomalyEvent) :=
  if 4 < t.rows.length then
    if t.periodsDated then
      let visits := t.rows.map MetricsRow.visits
      let recent : Int := visits.getLastD 0
      let avg : ℚ := baselineAvg visits
      let pct : ℚ := if 0 < avg then ((recent : ℚ) - avg) / avg * 100 else 0
      if 0 < avg ∧ avg * (5 / 4) < (recent : ℚ) then
        .ok (some ⟨recent, avg, pct, (visits.drop (visits.length - 5)).take 4⟩)
      else .ok none
    else .error ()
  else .ok none

/-! ## The cache-ratio summarizer (`metrics.py` lines 208-222,
`metrics_dashboard.py` lines 307-320) -/

inductive CacheNote where
  | inefficiency
  | effective
  deriving DecidableEq

/-- The fixed note sentences appended to the breakdown text. -/
def noteText : CacheNote → String
  | .inefficiency => "   Note: Average ratio is below 70%, which may indicate caching inefficiencies. Consider reviewing cache policies or content optimization.\n"
  | .effective => "   Note: Average ratio is above 70%, suggesting effective caching performance.\n"

/-- The cache breakdown block: with no extracted pairs the fallback message
(modelled as `none`); otherwise the mean of the ratios together with the note
selected by the `avg_ratio < 70` test. -/
def cacheBreakdown (data : List (List Char × ℚ)) : Option (ℚ × CacheNote) :=
  match data with
  | [] => none
  | _ =>
    let ratios := data.map Prod.snd
    let avg := ratios.sum / (ratios.length : ℚ)
    some (avg, if avg < 70 then CacheNote.inefficiency else CacheNote.effective)

/-! ## `metrics.py`: `create_html_output` -/

/-- `html.escape` with its default `quote=True`. -/
def htmlEscape (l : List Char) : List Char :=
  l.foldr (fun c acc =>
    (if c == '&' then "&amp;".data
     else if c == '<' then "&lt;".data
     else if c == '>' then "&gt;".data
     else if c == '"' then "&quot;".data
     else if c == '\'' then "&#x27;".data
     else [c]) ++ acc) []

/-- The literal template text before the escaped site name (the doubled
braces of the f-string denote literal braces in the output). -/
def tplA : String := "<!DOCTYPE html>\n<html lang=\"en\">\n<head>\n    <meta charset=\"UTF-8\">\n    <meta name=\"viewport\" content=\"width=device-width, initial-scale=1.0\">\n    <title>Terminus Metrics Output</title>\n    <style>\n        body \x7b font-family: \x27Courier New\x27, Courier, monospace; background-color: #f0f0f0; color: #333; margin: 20px; line-height: 1.5; \x7d\n        .container \x7b max-width: 900px; margin: 0 auto; background-color: #fff; padding: 20px; border: 1px solid #ccc; box-shadow: 0 0 10px rgba(0,0,0,0.1); \x7d\n        pre \x7b white-space: pre-wrap; background-color: #e8e8e8; padding: 10px; border-radius: 5px; overflow-x: auto; \x7d\n        h2 \x7b color: #2c3e50; \x7d\n        .section \x7b margin-top: 20px; \x7d\n    </style>\n</head>\n<body>\n    <div class=\"container\">\n        <h1>Terminus Metrics Report for "

def tplB : String := "</h1>\n        <div class=\"section\">\n            <h2>Command Output</h2>\n            <pre>"

def tplC : String := "</pre>\n        </div>\n        "

def tplD : String := "\n        <div class=\"section\">\n            <h2>Summary of Findings</h2>\n            <pre>"

def tplE : String := "</pre>\n        </div>\n        <div class=\"section\">\n            <h2>Cache Hit Ratio Breakdown</h2>\n            <pre>"

def tplF : String := "</pre>\n        </div>\n    </div>\n</body>\n</html>"

def errTplA : String := "<div class=\"section\"><h2>Errors</h2><pre>"

def errTplB : String := "</pre></div>"

/-- `create_html_output` (`metrics.py` lines 133-174): every interpolated
value is HTML-escaped; the errors section is present only for a non-empty
error text (Python truthiness of the string). -/
def createHtmlOutput (reformattedOutput errorText summaryText cacheBreakdownText siteName : List Char) : List Char :=
  tplA.data ++ htmlEscape siteName
    ++ tplB.data ++ htmlEscape reformattedOutput
    ++ tplC.data
    ++ (if errorText.isEmpty then []
        else errTplA.data ++ htmlEscape errorText ++ errTplB.data)
    ++ tplD.data ++ htmlEscape summaryText
    ++ tplE.data ++ htmlEscape cacheBreakdownText
    ++ tplF.data

/-- `pat` occurs as a contiguous substring of `l`. -/
def occursIn (pat l : List Char) : Prop :=
  ∃ a b, l = a ++ pat ++ b

/-! ## `metrics_dashboard.py`: `send_slack_notification` -/

/-- The outcome of the one `requests.post` call, abstracted: an HTTP status
or a raised network error. -/
inductive HttpOutcome where
  | response (status : Nat)
  | netError
  deriving DecidableEq

/-- What a call to `send_slack_notification` did: `posted = some (url, msg)`
when `requests.post(url, json={"text": msg})` was attempted, the returned
boolean, and whether a failure message was shown (`st.warning`/`st.error`). -/
structure SlackResult where
  posted : Option (String × String)
  success : Bool
  reportedFailure : Bool
  deriving DecidableEq

def slackHookTok : String := "hooks.slack.com/services/"

/-- `send_slack_notification` (`metrics_dashboard.py` lines 24-34): an unset
or empty URL, or one not containing the Slack hook fragment, is rejected with
a warning and no request; otherwise the payload `{"text": message}` is posted
and the call returns `status == 200`, with a raised network error caught,
reported and turned into `False`. -/
def sendSlackNotification (url : Option String) (message : String)
    (outcome : HttpOutcome) : SlackResult :=
  match url with
  | none => ⟨none, false, true⟩
  | some u =>
    if !u.isEmpty && containsList slackHookTok.data u.data then
      match outcome with
      | .response s => ⟨some (u, message), s == 200, false⟩
      | .netError => ⟨some (u, message), false, true⟩
    else ⟨none, false, true⟩

/-! ## Concrete data used by witnesses and counterexamples -/

def perW : List Char := "01-01-2024".data

def rowW (p : List Char) (v : Int) : MetricsRow :=
  ⟨p, v, 0, 0, 0, 95⟩

def tSmall : MetricsTable :=
  ⟨[rowW perW 1, rowW perW 2, rowW perW 3, rowW perW 4], true⟩

def urlW : String := "https://hooks.slack.com/services/T000/B000/XXXX"

def msgW : String := "alert"

def dataC5 : List (List Char × ℚ) :=
  [("05-01-2024".data, 80), ("05-02-2024".data, 60)]

/-! ## Claim theorems -/

/-- Claim C3: a parsed table with 4 or fewer rows makes the anomaly detector
skip: no event is produced and no error is raised. -/
theorem anomaly_skip_small (t : MetricsTable) (h : t.rows.length ≤ 4) :
    detectAnomaly t = Except.ok none := by
  unfold detectAnomaly
  rw [if_neg (by omega)]

/-- Witness for C3 on a concrete 4-row table. -/
theorem anomaly_skip_small_w :
    tSmall.rows.length ≤ 4 ∧ detectAnomaly tSmall = Except.ok none :=
  ⟨by decide, anomaly_skip_small tSmall (by decide)⟩

/-- The URL-validity test of `send_slack_notification` line 25: set,
non-empty and containing the Slack hooks fragment. -/
def slackUrlOk (url : Option String) : Bool :=
  match url with
  | none => false
  | some u => !u.isEmpty && containsList slackHookTok.data u.data

/-- Claim C9: the webhook sender posts `{"text": message}` to the configured
URL and reports success iff the HTTP status is 200; an unset/malformed URL or
a network error is reported to the user, yields failure, and never raises
(the model is a total function), so the surrounding report flow continues. -/
theorem slack_sender_spec (url : Option String) (message : String)
    (outcome : HttpOutcome) :
    ((sendSlackNotification url message outcome).success = true
        ↔ (slackUrlOk url = true ∧ outcome = HttpOutcome.response 200))
    ∧ (slackUrlOk url = false →
        sendSlackNotification url message outcome = ⟨none, false, true⟩)
    ∧ (slackUrlOk url = true → ∃ u, url = some u ∧
        (sendSlackNotification url message outcome).posted = some (u, message))
    ∧ (outcome = HttpOutcome.netError →
        (sendSlackNotification url message outcome).success = false
          ∧ (sendSlackNotification url message outcome).reportedFailure = true) := by
  cases url with
  | none =>
    refine ⟨?_, fun _ => rfl, fun hc => by simp [slackUrlOk] at hc, fun _ => ⟨rfl, rfl⟩⟩
    simp [sendSlackNotification, slackUrlOk]
  | some u =>
    by_cases hv : (!u.isEmpty && containsList slackHookTok.data u.data) = true
    · cases outcome with
      | response s =>
        refine ⟨?_, ?_, ?_, ?_⟩
        · simp [sendSlackNotification, slackUrlOk, hv]
        · intro hc; rw [slackUrlOk] at hc; rw [hc] at hv; cases hv
        · intro _
          exact ⟨u, rfl, by simp [sendSlackNotification, hv]⟩
        · intro hne; cases hne
      | netError =>
        refine ⟨?_, ?_, ?_, ?_⟩
        · simp [sendSlackNotification, slackUrlOk, hv]
        · intro hc; rw [slackUrlOk] at hc; rw [hc] at hv; cases hv
        · intro _
          exact ⟨u, rfl, by simp [sendSlackNotification, hv]⟩
        · intro _
          constructor <;> simp [sendSlackNotification, hv]
    · have hv' : (!u.isEmpty && containsList slackHookTok.data u.data) = false :=
        Bool.not_eq_true _ ▸ (by simpa using hv)
      refine ⟨?_, ?_, ?_, ?_⟩
      · simp [sendSlackNotification, slackUrlOk, hv']
      · intro _; simp [sendSlackNotification, hv']
      · intro hc; rw [slackUrlOk] at hc; rw [hc] at hv'; cases hv'
      · intro _
        constructor <;> simp [sendSlackNotification, hv']

/-- Witness for C9 at a concrete URL, message and outcome. -/
theorem slack_sender_spec_w :
    (sendSlackNotification (some urlW) msgW (HttpOutcome.response 200)).success = true
    ∧ (sendSlackNotification (some urlW) msgW (HttpOutcome.response 200)).posted
        = some (urlW, msgW)
    ∧ sendSlackNotification none msgW (HttpOutcome.response 200)
        = ⟨none, false, true⟩ := by
  refine ⟨?_, ?_, ?_⟩
  · exact (slack_sender_spec (some urlW) msgW (HttpOutcome.response 200)).1.mpr
      ⟨by decide, rfl⟩
  · obtain ⟨u, hu, hp⟩ :=
      (slack_sender_spec (some urlW) msgW (HttpOutcome.response 200)).2.2.1 (by decide)
    cases hu
    exact hp
  · exact (slack_sender_spec none msgW (HttpOutcome.response 200)).2.1 (by decide)

/-- Claim C5: on a non-empty pair list the summarizer reports the arithmetic
mean of the ratios, classified as "effective" exactly when the mean is at
least 70 (and as the inefficiency note below 70). -/
theorem cache_summary_spec (data : List (List Char × ℚ)) (h : data ≠ []) :
    ∃ note, cacheBreakdown data
        = some ((data.map Prod.snd).sum / ((data.map Prod.snd).length : ℚ), note)
      ∧ (note = CacheNote.effective
          ↔ 70 ≤ (data.map Prod.snd).sum / ((data.map Prod.snd).length : ℚ)) := by
  match data, h with
  | d :: ds, _ =>
    refine ⟨if ((d :: ds).map Prod.snd).sum / (((d :: ds).map Prod.snd).length : ℚ) < 70
        then CacheNote.inefficiency else CacheNote.effective, ?_, ?_⟩
    · rfl
    · by_cases h70 :
          ((d :: ds).map Prod.snd).sum / (((d :: ds).map Prod.snd).length : ℚ) < 70
      · rw [if_pos h70]
        constructor
        · intro hc; cases hc
        · intro hge; linarith
      · rw [if_neg h70]
        exact ⟨fun _ => le_of_not_lt h70, fun _ => rfl⟩

/-- Witness for C5: ratios `[80, 60]` give mean `70` and the effective
classification. -/
theorem cache_summary_spec_w :
    cacheBreakdown dataC5 = some (70, CacheNote.effective) := by
  obtain ⟨note, h1, h2⟩ := cache_summary_spec dataC5 (by decide)
  have hm : (dataC5.map Prod.snd).sum / ((dataC5.map Prod.snd).length : ℚ) = 70 := by
    norm_num [dataC5]
  rw [hm] at h1 h2
  rw [h2.mpr (by norm_num)] at h1
  exact h1

/-- Claim C8: the HTML export contains the HTML-escaped site name, command
output, summary and breakdown texts, and — when a non-empty error text exists
— the escaped error text, so user-supplied markup appears only in escaped
form. -/
theorem occursIn_refl (pat : List Char) : occursIn pat pat :=
  ⟨[], [], by simp⟩

theorem occursIn_append_right (pat l r : List Char) (h : occursIn pat l) :
    occursIn pat (l ++ r) := by
  obtain ⟨a, b, rfl⟩ := h
  exact ⟨a, b ++ r, by simp⟩

theorem occursIn_append_left (pat l x : List Char) (h : occursIn pat l) :
    occursIn pat (x ++ l) := by
  obtain ⟨a, b, rfl⟩ := h
  exact ⟨x ++ a, b, by simp⟩

theorem html_escapes_all_values (out err summ brk site : List Char) :
    occursIn (htmlEscape site) (createHtmlOutput out err summ brk site)
    ∧ occursIn (htmlEscape out) (createHtmlOutput out err summ brk site)
    ∧ (err ≠ [] → occursIn (htmlEscape err) (createHtmlOutput out err summ brk site))
    ∧ occursIn (htmlEscape summ) (createHtmlOutput out err summ brk site)
    ∧ occursIn (htmlEscape brk) (createHtmlOutput out err summ brk site) := by
  unfold createHtmlOutput
  refine ⟨?_, ?_, ?_, ?_, ?_⟩
  · repeat first
      | exact occursIn_append_left _ _ _ (occursIn_refl _)
      | apply occursIn_append_right
  · repeat first
      | exact occursIn_append_left _ _ _ (occursIn_refl _)
      | apply occursIn_append_right
  · intro he
    have hne : err.isEmpty = false := by
      cases err with
      | nil => exact absurd rfl he
      | cons a l => rfl
    apply occursIn_append_right
    apply occursIn_append_right
    apply occursIn_append_right
    apply occursIn_append_right
    apply occursIn_append_right
    apply occursIn_append_left
    rw [hne]
    simp only [Bool.false_eq_true, if_false]
    apply occursIn_append_right
    exact occursIn_append_left _ _ _ (occursIn_refl _)
  · repeat first
      | exact occursIn_append_left _ _ _ (occursIn_refl _)
      | apply occursIn_append_right
  · repeat first
      | exact occursIn_append_left _ _ _ (occursIn_refl _)
      | apply occursIn_append_right

def siteC8 : List Char := "<script>alert(1)</script>".data

def outC8 : List Char := "output".data

def errC8 : List Char := "bad".data

def summC8 : List Char := "summary".data

def brkC8 : List Char := "breakdown".data

/-- Witness for C8 with a site name containing `<script>`. -/
theorem html_escapes_all_values_w :
    occursIn (htmlEscape siteC8) (createHtmlOutput outC8 errC8 summC8 brkC8 siteC8)
    ∧ occursIn (htmlEscape errC8) (createHtmlOutput outC8 errC8 summC8 brkC8 siteC8) :=
  ⟨(html_escapes_all_values outC8 errC8 summC8 brkC8 siteC8).1,
    (html_escapes_all_values outC8 errC8 summC8 brkC8 siteC8).2.2.1 (by decide)⟩

/-- Claim C2 (amended): for a parsed table with more than 4 rows whose
`Period` column was successfully datetime-coerced, the detector's result is
an event exactly when the mean of the 4 visit counts preceding the last is
positive and the last visit count strictly exceeds 1.25 times it, the event
carrying that baseline and the percent increase
`(current - baseline) / baseline * 100`. -/
theorem anomaly_trigger_spec (t : MetricsTable) (h4 : 4 < t.rows.length)
    (hd : t.periodsDated = true) :
    detectAnomaly t =
      Except.ok
        (if 0 < baselineAvg (t.rows.map MetricsRow.visits)
            ∧ baselineAvg (t.rows.map MetricsRow.visits) * (5 / 4)
              < ((t.rows.map MetricsRow.visits).getLastD 0 : ℚ) then
          some ⟨(t.rows.map MetricsRow.visits).getLastD 0,
                baselineAvg (t.rows.map MetricsRow.visits),
                (((t.rows.map MetricsRow.visits).getLastD 0 : ℚ)
                    - baselineAvg (t.rows.map MetricsRow.visits))
                  / baselineAvg (t.rows.map MetricsRow.visits) * 100,
                ((t.rows.map MetricsRow.visits).drop
                    ((t.rows.map MetricsRow.visits).length - 5)).take 4⟩
        else none) := by
  unfold detectAnomaly
  rw [if_pos h4, hd]
  simp only [if_true]
  split
  · rename_i htr
    rw [if_pos htr.1]
  · rfl

def tW1251 : MetricsTable :=
  ⟨[rowW perW 1000, rowW perW 1000, rowW perW 1000, rowW perW 1000, rowW perW 1251],
    true⟩

def tW1250 : MetricsTable :=
  ⟨[rowW perW 1000, rowW perW 1000, rowW perW 1000, rowW perW 1000, rowW perW 1250],
    true⟩

/-- Witness for C2: with baseline visits `[1000, 1000, 1000, 1000]`, current
visits 1251 triggers an event and current visits 1250 does not. -/
theorem anomaly_trigger_spec_w :
    (∃ e, detectAnomaly tW1251 = Except.ok (some e))
    ∧ detectAnomaly tW1250 = Except.ok none := by
  constructor
  · have hv : tW1251.rows.map MetricsRow.visits = [1000, 1000, 1000, 1000, 1251] := by
      decide
    have hc : 0 < baselineAvg (tW1251.rows.map MetricsRow.visits)
        ∧ baselineAvg (tW1251.rows.map MetricsRow.visits) * (5 / 4)
          < ((tW1251.rows.map MetricsRow.visits).getLastD 0 : ℚ) := by
      rw [hv]
      norm_num [baselineAvg]
    have h := anomaly_trigger_spec tW1251 (by decide) (by decide)
    rw [if_pos hc] at h
    exact ⟨_, h⟩
  · have hv : tW1250.rows.map MetricsRow.visits = [1000, 1000, 1000, 1000, 1250] := by
      decide
    have hc : ¬ (0 < baselineAvg (tW1250.rows.map MetricsRow.visits)
        ∧ baselineAvg (tW1250.rows.map MetricsRow.visits) * (5 / 4)
          < ((tW1250.rows.map MetricsRow.visits).getLastD 0 : ℚ)) := by
      rw [hv]
      norm_num [baselineAvg]
    have h := anomaly_trigger_spec tW1250 (by decide) (by decide)
    rw [if_neg hc] at h
    exact h

def cxC2str : String := "Period  Visits  Pages Served  Cache Hits  Cache Misses  Cache Hit Ratio\n----\nw1  1000  1  1  1  50%\nw2  1000  1  1  1  50%\nw3  1000  1  1  1  50%\nw4  1000  1  1  1  50%\nw5  1251  1  1  1  50%"

def tCxC2 : MetricsTable :=
  match parseTableToDf cxC2str with
  | ParseResult.table t => t
  | _ => ⟨[], false⟩

/-- Counterexample for C2 as stated: on a parsed table with label (non-date)
periods, five rows and visits `[1000, 1000, 1000, 1000, 1251]` — which
satisfies the claimed trigger condition — the anomaly block raises
(`AttributeError` at the `.dt.strftime` access of line 280) instead of
emitting the event. -/
theorem anomaly_trigger_claim_cx :
    (tCxC2.rows.map MetricsRow.visits = [1000, 1000, 1000, 1000, 1251]
      ∧ tCxC2.periodsDated = false
      ∧ 4 < tCxC2.rows.length)
    ∧ detectAnomaly tCxC2 = Except.error ()
    ∧ (0 < baselineAvg (tCxC2.rows.map MetricsRow.visits)
        ∧ baselineAvg (tCxC2.rows.map MetricsRow.visits) * (5 / 4)
          < ((tCxC2.rows.map MetricsRow.visits).getLastD 0 : ℚ)) := by
  refine ⟨by decide, by rfl, ?_⟩
  have hv : tCxC2.rows.map MetricsRow.visits = [1000, 1000, 1000, 1000, 1251] := by
    decide
  rw [hv]
  norm_num [baselineAvg]

/-- Claim C1 (amended): data lines start two lines after the header — the
line immediately after the header line is skipped unconditionally — and from
there exactly the non-blank lines not starting with a dash whose split field
count equals the header's survive as rows. -/
theorem table_rows_skip_and_shape (hd x : List Char) (ls : List (List Char))
    (hh : isHeaderLine hd = true) :
    tableLines (hd :: x :: ls)
      = some (splitCols hd,
          ((ls.filter keepLine).map splitCols).filter
            (fun r => r.length == (splitCols hd).length)) := by
  unfold tableLines
  have hidx : findHeaderIdx (hd :: x :: ls) = some 0 := by
    unfold findHeaderIdx
    rw [if_pos hh]
  rw [hidx]
  rfl

def hdrC1w : List Char :=
  "Period  Visits  Pages Served  Cache Hits  Cache Misses  Cache Hit Ratio".data

def sepC1w : List Char := "---------".data

def rowC1w : List Char := "01-02-2024  1,000  2  3  4  95.5%".data

def inputC1w : String := "Period  Visits  Pages Served  Cache Hits  Cache Misses  Cache Hit Ratio\n---------\n01-02-2024  1,000  2  3  4  95.5%"

/-- The observable row count of a parse result. -/
def tableRowCount : ParseResult → Option Nat
  | ParseResult.table t => some t.rows.length
  | _ => none

/-- Witness for C1: a six-column header, a separator line, and one
six-field data row parse to exactly one row. -/
theorem table_rows_skip_and_shape_w :
    isHeaderLine hdrC1w = true
    ∧ tableLines (hdrC1w :: sepC1w :: [rowC1w])
        = some (splitCols hdrC1w,
            (([rowC1w].filter keepLine).map splitCols).filter
              (fun r => r.length == (splitCols hdrC1w).length))
    ∧ tableRowCount (parseTableToDf inputC1w) = some 1 :=
  ⟨by decide, table_rows_skip_and_shape hdrC1w sepC1w [rowC1w] (by decide), by decide⟩

def cxC1str : String := "Period  Visits  Pages Served  Cache Hits  Cache Misses  Cache Hit Ratio\n01-02-2024  1  2  3  4  5%"

/-- Counterexample for C1 as stated: a six-column header immediately followed
by a six-field data row yields no row at all — the parser unconditionally
skips the line right after the header — so the result is the empty-table
state rather than exactly one `MetricsRow`. -/
theorem table_rows_claim_cx :
    parseTableToDf cxC1str = ParseResult.noTable
    ∧ ¬ ∃ t, parseTableToDf cxC1str = ParseResult.table t ∧ t.rows.length = 1 := by
  have h : parseTableToDf cxC1str = ParseResult.noTable := by decide
  refine ⟨h, ?_⟩
  rintro ⟨t, ht, -⟩
  rw [h] at ht
  exact ParseResult.noConfusion ht

theorem tableLines_none_iff (lines : List (List Char)) :
    tableLines lines = none ↔ findHeaderIdx lines = none := by
  unfold tableLines
  cases h : findHeaderIdx lines <;> simp [h]

/-- Claim C6 (amended): `parse_table_to_df` returns the recognized
empty-table state exactly when no line contains both header tokens, or when a
header was found but zero data rows survive the filter; those two cases raise
nothing, but on other inputs the parser can raise during numeric coercion
instead of returning. -/
theorem no_table_iff (lines : List (List Char)) :
    parseTableLines lines = ParseResult.noTable
      ↔ (findHeaderIdx lines = none
          ∨ ∃ header, tableLines lines = some (header, [])) := by
  unfold parseTableLines
  cases h : tableLines lines with
  | none =>
    have hn := (tableLines_none_iff lines).mp h
    simp [hn]
  | some pr =>
    obtain ⟨header, rows⟩ := pr
    have hne : findHeaderIdx lines ≠ none := by
      intro hn
      rw [← tableLines_none_iff, h] at hn
      exact Option.noConfusion hn
    cases rows with
    | nil => exact ⟨fun _ => Or.inr ⟨header, rfl⟩, fun _ => rfl⟩
    | cons r rs =>
      simp only [List.isEmpty_cons, Bool.false_eq_true, if_false]
      constructor
      · intro hx
        cases hm : (r :: rs).mapM (coerceRow header) with
        | some rs' => rw [hm] at hx; exact ParseResult.noConfusion hx
        | none => rw [hm] at hx; exact ParseResult.noConfusion hx
      · intro hor
        cases hor with
        | inl hn => exact absurd hn hne
        | inr hex =>
          obtain ⟨h2, he⟩ := hex
          simp at he

def noHdrStr : String := "no table in this text"

/-- Witness for C6: text without a header line lands in the empty-table
state. -/
theorem no_table_iff_w :
    parseTableLines (splitLines noHdrStr.data) = ParseResult.noTable :=
  (no_table_iff (splitLines noHdrStr.data)).mpr (Or.inl (by decide))

def cxC6str : String := "Period  Visits  Pages Served  Cache Hits  Cache Misses  Cache Hit Ratio\n----\nA  b  c  d  e  f"

/-- Counterexample for C6 as stated: with a header and a surviving six-field
row whose `Visits` cell is not numeric, the parser raises (`ValueError` in
`astype(int)`) instead of returning a recognized result. -/
theorem parse_raises_cx : parseTableToDf cxC6str = ParseResult.exn := by decide

theorem dropWhile_eq_self_of_all (p : Char → Bool) (l : List Char)
    (h : ∀ c ∈ l, p c = false) : l.dropWhile p = l := by
  cases l with
  | nil => rfl
  | cons a t =>
    rw [List.dropWhile_cons, h a (List.mem_cons_self a t)]
    simp

theorem dropWhile_eq_self_of_head (p : Char → Bool) (xs ys : List Char)
    (hx : xs ≠ []) (h : ∀ c ∈ xs, p c = false) :
    (xs ++ ys).dropWhile p = xs ++ ys := by
  cases xs with
  | nil => exact absurd rfl hx
  | cons a l =>
    rw [List.cons_append, List.dropWhile_cons, h a (List.mem_cons_self a l)]
    simp

theorem pyStrip_of_ends (l : List Char)
    (e1 : l.dropWhile isSpaceChar = l)
    (e2 : l.reverse.dropWhile isSpaceChar = l.reverse) :
    pyStrip l = l := by
  unfold pyStrip
  rw [e1, e2, List.reverse_reverse]

theorem pyStrip_of_all (l : List Char) (h : ∀ c ∈ l, isSpaceChar c = false) :
    pyStrip l = l := by
  refine pyStrip_of_ends l (dropWhile_eq_self_of_all _ _ h)
    (dropWhile_eq_self_of_all _ _ ?_)
  intro c hc
  exact h c (List.mem_reverse.mp hc)

theorem splitRunsGo_nonspace :
    ∀ (t cur rest : List Char), (∀ c ∈ t, isSpaceChar c = false) →
      splitRunsGo cur [] (t ++ rest) = splitRunsGo (t.reverse ++ cur) [] rest
  | [], cur, rest, _ => by simp
  | a :: l, cur, rest, h => by
    have ha : isSpaceChar a = false := h a (List.mem_cons_self a l)
    rw [List.cons_append]
    rw [show splitRunsGo cur [] (a :: (l ++ rest))
        = splitRunsGo (a :: cur) [] (l ++ rest) from by simp [splitRunsGo, ha]]
    rw [splitRunsGo_nonspace l (a :: cur) rest
      (fun c hc => h c (List.mem_cons_of_mem a hc))]
    simp

theorem splitRunsGo_final (t cur : List Char)
    (h : ∀ c ∈ t, isSpaceChar c = false) :
    splitRunsGo cur [] t = [cur.reverse ++ t] := by
  have e := splitRunsGo_nonspace t cur [] h
  rw [List.append_nil] at e
  rw [e]
  simp [splitRunsGo]

/-- Claim C7 (amended): the header line is split into column names on runs of
two or more whitespace characters only; a single tab or a comma between two
header tokens does not delimit and stays inside a single column name. -/
theorem header_split_spec (t1 t2 : List Char)
    (h1 : t1 ≠ []) (h2 : t2 ≠ [])
    (n1 : ∀ c ∈ t1, isSpaceChar c = false)
    (n2 : ∀ c ∈ t2, isSpaceChar c = false) :
    splitCols (t1 ++ ' ' :: ' ' :: t2) = [t1, t2]
    ∧ splitCols (t1 ++ '\t' :: t2) = [t1 ++ '\t' :: t2]
    ∧ splitCols (t1 ++ ',' :: t2) = [t1 ++ ',' :: t2] := by
  cases t2 with
  | nil => exact absurd rfl h2
  | cons b t2' =>
    have hb : isSpaceChar b = false := n2 b (List.mem_cons_self b t2')
    have n2' : ∀ c ∈ t2', isSpaceChar c = false :=
      fun c hc => n2 c (List.mem_cons_of_mem b hc)
    refine ⟨?_, ?_, ?_⟩
    · have estrip : pyStrip (t1 ++ ' ' :: ' ' :: b :: t2') = t1 ++ ' ' :: ' ' :: b :: t2' := by
        refine pyStrip_of_ends _ (dropWhile_eq_self_of_head _ t1 _ h1 n1) ?_
        have hrev : (t1 ++ ' ' :: ' ' :: b :: t2').reverse
            = (b :: t2').reverse ++ ([' ', ' '] ++ t1.reverse) := by
          simp
        rw [hrev]
        refine dropWhile_eq_self_of_head _ _ _ (by simp) ?_
        intro c hc
        exact n2 c (List.mem_reverse.mp hc)
      unfold splitCols
      rw [estrip, splitRunsGo_nonspace t1 [] _ n1]
      rw [show splitRunsGo (t1.reverse ++ []) [] (' ' :: ' ' :: b :: t2')
          = splitRunsGo (t1.reverse ++ []) [' ', ' '] (b :: t2') from by
        simp [splitRunsGo, isSpaceChar]]
      rw [show splitRunsGo (t1.reverse ++ []) [' ', ' '] (b :: t2')
          = (t1.reverse ++ []).reverse :: splitRunsGo [b] [] t2' from by
        simp [splitRunsGo, hb]]
      rw [splitRunsGo_final t2' [b] n2']
      simp
    · have estrip : pyStrip (t1 ++ '\t' :: b :: t2') = t1 ++ '\t' :: b :: t2' := by
        refine pyStrip_of_ends _ (dropWhile_eq_self_of_head _ t1 _ h1 n1) ?_
        have hrev : (t1 ++ '\t' :: b :: t2').reverse
            = (b :: t2').reverse ++ (['\t'] ++ t1.reverse) := by
          simp
        rw [hrev]
        refine dropWhile_eq_self_of_head _ _ _ (by simp) ?_
        intro c hc
        exact n2 c (List.mem_reverse.mp hc)
      unfold splitCols
      rw [estrip, splitRunsGo_nonspace t1 [] _ n1]
      have htab : isSpaceChar '\t' = true := by decide
      rw [show splitRunsGo (t1.reverse ++ []) [] ('\t' :: b :: t2')
          = splitRunsGo (b :: ('\t' :: (t1.reverse ++ []))) [] t2' from by
        simp [splitRunsGo, htab, hb]]
      rw [splitRunsGo_final t2' (b :: ('\t' :: (t1.reverse ++ []))) n2']
      simp
    · have hall : ∀ c ∈ t1 ++ ',' :: b :: t2', isSpaceChar c = false := by
        intro c hc
        rcases List.mem_append.mp hc with hc1 | hc2
        · exact n1 c hc1
        · rcases List.mem_cons.mp hc2 with hc3 | hc4
          · rw [hc3]; rfl
          · exact n2 c hc4
      unfold splitCols
      rw [pyStrip_of_all _ hall, splitRunsGo_final _ [] hall]
      simp

def hdrCommaCx : List Char := "Period,Cache Hit Ratio".data

/-- Counterexample for C7 as stated: a comma does not delimit the header —
`Period,Cache Hit Ratio` splits into a single column name, not two. -/
theorem header_split_claim_cx :
    splitCols hdrCommaCx = [hdrCommaCx]
    ∧ splitCols hdrCommaCx ≠ [periodTok, ratioTok] :=
  ⟨by decide, by decide⟩

/-- Witness for C7 on the concrete tokens `Period` and `Visits`. -/
theorem header_split_spec_w :
    splitCols (periodTok ++ ' ' :: ' ' :: visitsTok) = [periodTok, visitsTok]
    ∧ splitCols (periodTok ++ '\t' :: visitsTok) = [periodTok ++ '\t' :: visitsTok]
    ∧ splitCols (periodTok ++ ',' :: visitsTok) = [periodTok ++ ',' :: visitsTok] :=
  header_split_spec periodTok visitsTok (by decide) (by decide) (by decide) (by decide)

theorem extractGo_true_filterMap (ls : List (List Char)) :
    extractGo true ls = ls.filterMap (fun l =>
      if isHeaderLine l then none
      else if (pyStrip l).isEmpty then none
      else parseDataLine l) := by
  induction ls with
  | nil => rfl
  | cons l rest ih =>
    rw [List.filterMap_cons]
    by_cases hh : isHeaderLine l
    · simp [extractGo, hh, ih]
    · by_cases hb : (pyStrip l).isEmpty
      · simp [extractGo, hh, hb, ih]
      · cases hp : parseDataLine l with
        | some pr => simp [extractGo, hh, hb, hp, ih]
        | none => simp [extractGo, hh, hb, hp, ih]

theorem extractGo_false_skip (pre rest : List (List Char))
    (h : ∀ l ∈ pre, isHeaderLine l = false) :
    extractGo false (pre ++ rest) = extractGo false rest := by
  induction pre with
  | nil => rfl
  | cons a l ih =>
    have ha : isHeaderLine a = false := h a (List.mem_cons_self a l)
    rw [List.cons_append]
    rw [show extractGo false (a :: (l ++ rest)) = extractGo false (l ++ rest) from by
      simp [extractGo, ha]]
    exact ih (fun x hx => h x (List.mem_cons_of_mem a hx))

/-- Claim C10 (amended): once a header line is found, every later line that
does not itself contain both header tokens and is non-blank goes through the
per-line parse — at least two non-empty fields, first field as period, last
field with `%` stripped from *both* ends as ratio, kept only when the
stripped ratio passes the digits-and-dots check and parses as a float —
independent of the header's column count; the function is total (it never
raises). -/
theorem extractor_line_filter (pre : List (List Char)) (hd : List Char)
    (ls : List (List Char))
    (hpre : ∀ l ∈ pre, isHeaderLine l = false)
    (hh : isHeaderLine hd = true) :
    extractGo false (pre ++ hd :: ls)
      = ls.filterMap (fun l =>
          if isHeaderLine l then none
          else if (pyStrip l).isEmpty then none
          else parseDataLine l) := by
  rw [extractGo_false_skip pre _ hpre]
  rw [show extractGo false (hd :: ls) = extractGo true ls from by
    simp [extractGo, hh]]
  exact extractGo_true_filterMap ls

def hdrC10w : List Char := "Period  Cache Hit Ratio".data

def dataC10w : List Char := "2024-05-08  93.8%".data

/-- Witness for C10 on one concrete header and data line. -/
theorem extractor_line_filter_w :
    extractGo false ([] ++ hdrC10w :: [dataC10w])
      = [dataC10w].filterMap (fun l =>
          if isHeaderLine l then none
          else if (pyStrip l).isEmpty then none
          else parseDataLine l) :=
  extractor_line_filter [] hdrC10w [dataC10w] (by simp) (by decide)

def cxC10str : String := "Period  Cache Hit Ratio\nA  %95%"

def tokA : List Char := "A".data

def tokRatioC10 : List Char := "%95%".data

/-- Counterexample for C10 as stated: on the data line `A  %95%` the code
appends a pair — `strip('%')` removes percent signs from *both* ends, giving
`95` — although the claim's ratio string, `%95%` with only the trailing `%`
stripped, fails the digits-and-dots condition, so under the claim nothing
would be appended. -/
theorem extractor_strip_claim_cx :
    (extractCacheHitRatios cxC10str).map Prod.fst = [tokA]
    ∧ isDigitsDots (stripTrailingPercent tokRatioC10) = false :=
  ⟨by decide, by decide⟩

theorem matchDate10_nondigit (c : Char) (cs : List Char) (hc : c.isDigit = false) :
    matchDate10 (c :: cs) = none := by
  unfold matchDate10
  split
  · rename_i y1 y2 y3 y4 h1 m1 m2 h2 d1 d2 rest heq
    injection heq with e1 e2
    subst e1
    have hcond : (h1 == '-' && h2 == '-'
        && [c, y2, y3, y4, m1, m2, d1, d2].all Char.isDigit
        && boundaryAfterOk rest) = false := by
      simp [hc]
    rw [hcond]
    rfl
  · rfl

theorem bndAfter_cons (bnd : Bool) (a : Char) (l : List Char) :
    bndAfter bnd (a :: l) = bndAfter (!isWordChar a) l := by
  unfold bndAfter
  cases l with
  | nil => rfl
  | cons b m =>
    rw [List.getLast?_cons_cons]
    cases hx : (b :: m).getLast? with
    | none =>
      rw [List.getLast?_eq_none_iff] at hx
      exact List.noConfusion hx
    | some c => rfl

theorem reformatAux_append_nondigit :
    ∀ (pre : List Char) (bnd : Bool) (rest : List Char),
      (∀ c ∈ pre, c.isDigit = false) →
      reformatAux bnd (pre ++ rest) = pre ++ reformatAux (bndAfter bnd pre) rest
  | [], bnd, rest, _ => by simp [bndAfter]
  | a :: l, bnd, rest, h => by
    have ha : a.isDigit = false := h a (List.mem_cons_self a l)
    rw [List.cons_append]
    rw [show reformatAux bnd (a :: (l ++ rest))
        = a :: reformatAux (!isWordChar a) (l ++ rest) from by
      conv_lhs => rw [reformatAux]
      rw [matchDate10_nondigit a _ ha]]
    rw [reformatAux_append_nondigit l (!isWordChar a) rest
      (fun c hc => h c (List.mem_cons_of_mem a hc))]
    rw [bndAfter_cons]
    rfl

/-- Claim C4: the reformatter leaves a digit-free prefix (ending in a word
boundary) unchanged, rewrites a pattern match that is a valid calendar date
into month-day-year order, re-emits an invalid match (such as `2024-02-30`)
unchanged, and continues scanning after the match; it is a total function,
so no error is ever raised. -/
theorem date_reformatter_spec (pre s : List Char)
    (y1 y2 y3 y4 m1 m2 d1 d2 : Char)
    (hpre : ∀ c ∈ pre, c.isDigit = false)
    (hbnd : bndAfter true pre = true)
    (hdig : [y1, y2, y3, y4, m1, m2, d1, d2].all Char.isDigit = true)
    (hs : boundaryAfterOk s = true) :
    reformatAux true
        (pre ++ y1 :: y2 :: y3 :: y4 :: '-' :: m1 :: m2 :: '-' :: d1 :: d2 :: s)
      = pre ++
        (if isValidDate (digitsToNat [y1, y2, y3, y4]) (digitsToNat [m1, m2])
            (digitsToNat [d1, d2]) then
          m1 :: m2 :: '-' :: d1 :: d2 :: '-' :: y1 :: y2 :: y3 :: y4
            :: reformatAux false s
        else
          y1 :: y2 :: y3 :: y4 :: '-' :: m1 :: m2 :: '-' :: d1 :: d2
            :: reformatAux false s) := by
  rw [reformatAux_append_nondigit pre true _ hpre, hbnd]
  congr 1
  conv_lhs => rw [reformatAux]
  have hm : matchDate10
      (y1 :: y2 :: y3 :: y4 :: '-' :: m1 :: m2 :: '-' :: d1 :: d2 :: s)
      = some (y1, y2, y3, y4, m1, m2, d1, d2) := by
    rw [show matchDate10
        (y1 :: y2 :: y3 :: y4 :: '-' :: m1 :: m2 :: '-' :: d1 :: d2 :: s)
        = if (('-' : Char) == '-' && ('-' : Char) == '-'
            && [y1, y2, y3, y4, m1, m2, d1, d2].all Char.isDigit
            && boundaryAfterOk s) = true then
          some (y1, y2, y3, y4, m1, m2, d1, d2)
        else none from rfl]
    rw [hdig, hs]
    rfl
  rw [hm]
  rw [show (match some (y1, y2, y3, y4, m1, m2, d1, d2) with
      | some (y1, y2, y3, y4, m1, m2, d1, d2) =>
        if true = true then
          (if isValidDate (digitsToNat [y1, y2, y3, y4]) (digitsToNat [m1, m2])
              (digitsToNat [d1, d2]) = true then
            [m1, m2, '-', d1, d2, '-', y1, y2, y3, y4]
          else [y1, y2, y3, y4, '-', m1, m2, '-', d1, d2]) ++
            reformatAux false
              (List.drop 10 (y1 :: y2 :: y3 :: y4 :: '-' :: m1 :: m2 :: '-'
                :: d1 :: d2 :: s))
        else y1 :: reformatAux (!isWordChar y1)
          (y2 :: y3 :: y4 :: '-' :: m1 :: m2 :: '-' :: d1 :: d2 :: s)
      | none => y1 :: reformatAux (!isWordChar y1)
          (y2 :: y3 :: y4 :: '-' :: m1 :: m2 :: '-' :: d1 :: d2 :: s))
      = (if isValidDate (digitsToNat [y1, y2, y3, y4]) (digitsToNat [m1, m2])
            (digitsToNat [d1, d2]) = true then
          [m1, m2, '-', d1, d2, '-', y1, y2, y3, y4]
        else [y1, y2, y3, y4, '-', m1, m2, '-', d1, d2]) ++ reformatAux false s
      from rfl]
  split
  · rfl
  · rfl

def preC4 : List Char := "Date: ".data

def preC4b : List Char := "a ".data

def sufC4 : List Char := " x".data

def okC4in : List Char := "Date: 2024-05-08 x".data

def okC4out : List Char := "Date: 05-08-2024 x".data

def badC4in : List Char := "a 2024-02-30 x".data

/-- Witness for C4: `2024-05-08` in context is rewritten to `05-08-2024`
with all surrounding characters intact, and the pattern-matching but invalid
`2024-02-30` passes through unchanged. -/
theorem date_reformatter_spec_w :
    reformatAux true okC4in = okC4out
    ∧ reformatAux true badC4in = badC4in := by
  have hsuf : reformatAux false sufC4 = sufC4 := by
    have e := reformatAux_append_nondigit sufC4 false [] (by decide)
    rw [List.append_nil] at e
    rw [e]
    simp [reformatAux]
  constructor
  · have h := date_reformatter_spec preC4 sufC4 '2' '0' '2' '4' '0' '5' '0' '8'
      (by decide) (by decide) (by decide) (by decide)
    rw [if_pos (by decide)] at h
    rw [hsuf] at h
    have e1 : okC4in
        = preC4 ++ '2' :: '0' :: '2' :: '4' :: '-' :: '0' :: '5' :: '-'
            :: '0' :: '8' :: sufC4 := by decide
    have e2 : okC4out
        = preC4 ++ '0' :: '5' :: '-' :: '0' :: '8' :: '-' :: '2' :: '0'
            :: '2' :: '4' :: sufC4 := by decide
    rw [e1, e2]
    exact h
  · have h := date_reformatter_spec preC4b sufC4 '2' '0' '2' '4' '0' '2' '3' '0'
      (by decide) (by decide) (by decide) (by decide)
    rw [if_neg (by decide)] at h
    rw [hsuf] at h
    have e1 : badC4in
        = preC4b ++ '2' :: '0' :: '2' :: '4' :: '-' :: '0' :: '2' :: '-'
            :: '3' :: '0' :: sufC4 := by decide
    rw [e1]
    exact h

end PantheonMetrics
